import Mathlib

/-!
Shallow embedding of the sprattus test-infrastructure scripts
(`extract_config.py`, `convert_old_config.py`, `check.py`, `double_to_smt.py`)
and proofs about the properties of their specification.

Lines of text are modelled as Lean `String`s; the per-line scanners are
modelled as structural recursions over lists of lines.  Process exit
behaviour (normal termination versus an uncaught exception) is modelled by
dedicated result types.
-/

set_option autoImplicit false
set_option maxRecDepth 100000

/-! Generic character-list utilities shared by the embeddings. -/

/-- Whitespace characters of Python's `str.strip()`. -/
def pyWhitespace (c : Char) : Bool :=
  c == ' ' || c == '\t' || c == '\n' || c == '\r' || c == '\x0b' || c == '\x0c'

/-- Remove leading and trailing characters satisfying `p` (Python `strip`). -/
def stripWith (p : Char → Bool) (s : String) : String :=
  ⟨((s.data.dropWhile p).reverse.dropWhile p).reverse⟩

/-- Python `s.strip()`. -/
def pyStrip (s : String) : String := stripWith pyWhitespace s

/-- Python `s.strip('\n')`: remove newline characters at both ends. -/
def stripNl (s : String) : String := stripWith (fun c => c == '\n') s

/-- Split at the first occurrence of `pat`: returns the segment before the
occurrence and the segment after it, or `none` when `pat` does not occur. -/
def splitFirstAfter (pat : List Char) : List Char → Option (List Char × List Char)
  | [] => none
  | c :: cs =>
    if pat.isPrefixOf (c :: cs) then some ([], (c :: cs).drop pat.length)
    else
      match splitFirstAfter pat cs with
      | some (p, q) => some (c :: p, q)
      | none => none

/-- Split at the last occurrence of `pat` (the occurrence starting at the
largest index), as matched by the greedy regular expression `.*pat`. -/
def splitLastAfter (pat : List Char) : List Char → Option (List Char × List Char)
  | [] => none
  | c :: cs =>
    match splitLastAfter pat cs with
    | some (p, q) => some (c :: p, q)
    | none =>
      if pat.isPrefixOf (c :: cs) then some ([], (c :: cs).drop pat.length) else none

/-- Repeated splitting on a non-empty separator; the fuel bounds the number
of fragments and `length + 1` always suffices. -/
def splitAllAux (sep : List Char) : Nat → List Char → List (List Char)
  | 0, s => [s]
  | fuel + 1, s =>
    match splitFirstAfter sep s with
    | none => [s]
    | some (before, after) => before :: splitAllAux sep fuel after

/-- Python `s.split(sep)` for a non-empty separator `sep`. -/
def pySplit (sep s : String) : List String :=
  (splitAllAux sep.data (s.data.length + 1) s.data).map fun l => ⟨l⟩

/-- Python `', '.join(...)`-style joining. -/
def joinSep (sep : String) : List String → String
  | [] => ""
  | [x] => x
  | x :: xs => x ++ sep ++ joinSep sep xs

/-! Embedding of `extract_config.py`.

`config_re = re.compile("(CONFIG:)(.*\n)")`; for every input line the script
asserts that the line ends with a newline, then writes
`config_line.strip() + '\n'` for every `findall` match, streaming to
standard output as it goes. -/

/-- The directive marker. -/
def configMarker : List Char := "CONFIG:".data

/-- Python `line.endswith('\n')`. -/
def pyEndswithNl (s : String) : Bool :=
  match s.data.getLast? with
  | some c => c == '\n'
  | none => false

/-- Successive matches of the regular expression `(CONFIG:)(.*\n)` in one
line: each match consumes the text from a marker occurrence up to and
including the next newline, and scanning resumes after that newline. -/
def payloadsAux : Nat → List Char → List (List Char)
  | 0, _ => []
  | fuel + 1, s =>
    match splitFirstAfter configMarker s with
    | none => []
    | some (_, rest) =>
      match splitFirstAfter ['\n'] rest with
      | none => []
      | some (before, after) => (before ++ ['\n']) :: payloadsAux fuel after

/-- The stripped payloads the extractor prints for one input line. -/
def linePayloads (line : String) : List String :=
  (payloadsAux line.data.length line.data).map fun g => pyStrip ⟨g⟩

/-- Outcome of running the extractor: normal termination with the emitted
payload lines, or an `AssertionError` (non-zero exit) carrying the payload
lines already written to standard output before the failure. -/
inductive ExtractResult
  | ok (out : List String)
  | assertFail (out : List String)
  deriving DecidableEq

/-- The extractor's `main` loop over the input lines. -/
def extractRun : List String → ExtractResult
  | [] => .ok []
  | line :: rest =>
    if pyEndswithNl line then
      match extractRun rest with
      | .ok out => .ok (linePayloads line ++ out)
      | .assertFail out => .assertFail (linePayloads line ++ out)
    else .assertFail []

/-- All payloads of a list of lines, in input order. -/
def extractOutputs (lines : List String) : List String :=
  (lines.map linePayloads).flatten

/-! Embedding of `convert_old_config.py`.

`config_re = re.compile("^(.*CONFIG:)(.*)$")`: `.*` is greedy, so group 1
extends up to and including the last `CONFIG:` occurrence of the line and
group 2 is the remainder.  Every matching line appends `'\n' + group2` to
the accumulated document and overwrites `prefix` with its group 1. -/

/-- Result of `config_re.match(line)`: `(group1, group2)` where `group1`
ends with the marker, or `none` when the line does not match. -/
def configMatch (line : String) : Option (String × String) :=
  (splitLastAfter configMarker line.data).map fun pq =>
    (⟨pq.1 ++ configMarker⟩, ⟨pq.2⟩)

/-- Mutable state of the migrator's scanning loop. -/
structure ScanState where
  lines_pre : List String
  lines_post : List String
  yaml_src : String
  pfx : Option String

/-- One iteration of the migrator's `for line in fp` loop. -/
def scanStep (st : ScanState) (line : String) : ScanState :=
  match configMatch line with
  | none =>
    if st.pfx.isNone then { st with lines_pre := st.lines_pre ++ [line] }
    else { st with lines_post := st.lines_post ++ [line] }
  | some (g1, g2) =>
    { st with yaml_src := st.yaml_src ++ "\n" ++ g2, pfx := some g1 }

/-- The migrator's whole scanning loop. -/
def migrateScan (lines : List String) : ScanState :=
  lines.foldl scanStep ⟨[], [], "", none⟩

/-- A parsed YAML value of the fragment the directives use. -/
inductive YVal
  | scalar (s : String)
  | seq (items : List String)
  deriving DecidableEq

/-- A parsed YAML document: `yaml.load` may return `None`, a plain scalar,
or a key/value mapping. -/
inductive YDoc
  | nil
  | scalarDoc (s : String)
  | dict (entries : List (String × YVal))
  deriving DecidableEq

/-- A line consisting of whitespace only. -/
def isBlank (s : String) : Bool := s.data.all pyWhitespace

/-- Whether a line contains a colon. -/
def hasColon (s : String) : Bool := s.data.contains ':'

/-- Modelled from the spec: flow-sequence and scalar values of the external
structured-document parser (`yaml.load`, not part of this repository).  A
flow sequence `[a, b]` becomes the list of its trimmed items, an
unterminated `[` is a parse error, and any other text is a plain scalar. -/
def parseYVal (txt : String) : Option YVal :=
  match txt.data with
  | '[' :: rest =>
    match rest.getLast? with
    | some ']' =>
      some (.seq ((splitAllAux [','] (rest.length + 1) rest.dropLast).map
        fun l => pyStrip ⟨l⟩))
    | _ => none
  | _ => some (.scalar txt)

/-- Parse one `key: value` mapping line. -/
def parseEntry (line : String) : Option (String × YVal) :=
  match splitFirstAfter [':'] line.data with
  | none => none
  | some (before, after) =>
    (parseYVal (pyStrip ⟨after⟩)).map fun v => (pyStrip ⟨before⟩, v)

/-- Parse every mapping line, failing as soon as one fails. -/
def parseEntries : List String → Option (List (String × YVal))
  | [] => some []
  | l :: rest =>
    match parseEntry l, parseEntries rest with
    | some e, some es => some (e :: es)
    | _, _ => none

/-- Modelled from the spec: the external structured-document parser
(`yaml.load`, not part of this repository) on the block-mapping fragment the
directives use.  An empty document yields the `None` document, a single
colon-free line a scalar document, colon-separated lines a key/value
mapping, and anything else a parse failure (`none`). -/
def yamlLoad (src : String) : Option YDoc :=
  match (pySplit "\n" src).filter (fun l => !isBlank l) with
  | [] => some .nil
  | [single] =>
    if hasColon single then (parseEntries [single]).map .dict
    else some (.scalarDoc (pyStrip single))
  | many =>
    if many.all hasColon then (parseEntries many).map .dict
    else none

/-- Outcome of running the migrator on a file.  `ok` is a successful
in-place rewrite with the given new contents.  `parseError` is an exception
raised by the document parser: it is raised before `open(file_name, 'w')`,
so the file is left unchanged.  `runtimeError` is an exception raised while
looking up the reserved key: by then the file has been opened for writing
(truncated) and `lines_pre` written, so the file now holds exactly the
recorded lines — a partial write. -/
inductive MigrateResult
  | ok (file : List String)
  | parseError
  | runtimeError (written : List String)
  deriving DecidableEq

/-- Python `'%s' % v` for a parsed YAML value (a list prints with quoted
elements). -/
def renderVal : YVal → String
  | .scalar s => s
  | .seq items => "[" ++ (joinSep ", " (items.map fun x => "'" ++ (x ++ "'")) ++ "]")

/-- Iterating Python values: iterating a list yields its items, iterating a
string yields its characters. -/
def domainNames : YVal → List String
  | .seq items => items
  | .scalar s => s.data.map fun c => String.mk [c]

/-- One emitted normalized directive line `'%s config.%s = %s'`. -/
def mkDirLine (p k v : String) : String :=
  p ++ (" config." ++ (k ++ (" = " ++ v)))

/-- The emitted domain-list line
`'%s config.AbstractDomain = [%s]'` with registry lookups. -/
def mkDomLine (p : String) (doms : List String) : String :=
  p ++ (" config.AbstractDomain = [" ++
    (joinSep ", " (doms.map fun x => "globals()['" ++ (x ++ "']")) ++ "]"))

/-- The migrator's `main`: scan, parse the accumulated document, rewrite. -/
def migrate (lines : List String) : MigrateResult :=
  let st := migrateScan lines
  match yamlLoad st.yaml_src with
  | none => .parseError
  | some .nil => .runtimeError st.lines_pre
  | some (.scalarDoc _) => .runtimeError st.lines_pre
  | some (.dict entries) =>
    match entries.lookup "AbstractDomain" with
    | none => .runtimeError st.lines_pre
    | some domv =>
      let rest := entries.filter fun kv => kv.1 != "AbstractDomain"
      let p := st.pfx.getD "None"
      .ok (st.lines_pre ++ (rest.map fun kv => mkDirLine p kv.1 (renderVal kv.2))
        ++ [mkDomLine p (domainNames domv)] ++ st.lines_post)

/-- Group 1 of the first directive-marker-matching line, if any. -/
def firstPfx : List String → Option String
  | [] => none
  | l :: rest =>
    match configMatch l with
    | some pq => some pq.1
    | none => firstPfx rest

/-- Group 1 of the last directive-marker-matching line, if any. -/
def lastPfx : List String → Option String
  | [] => none
  | l :: rest =>
    match lastPfx rest with
    | some g => some g
    | none => (configMatch l).map fun pq => pq.1

/-! Embedding of `check.py`.

The script reads the result file, strips newlines, and scans the lines:
a value `bottom` emits a warning and continues; with more than two
command-line arguments, the first line whose identifier equals `argv[2]`
terminates the scan with `sys.exit(0)` after printing a diagnostic.
`keyvalue[1]` on a line without the separator, and `sys.argv[3]` when only
three arguments were given, raise an uncaught `IndexError`. -/

/-- Diagnostics printed by the checker, abstracted from their colored
textual form but carrying the same data. -/
inductive Diag
  | bottomWarn (id : String)
  | topOverride (id : String)
  | success
  | fail (id actual expected : String)
  deriving DecidableEq

/-- Outcome of running the checker: normal termination (exit status 0) or an
uncaught `IndexError` (non-zero exit), with the diagnostics printed before
the end in either case. -/
inductive CheckResult
  | ok (diags : List Diag)
  | indexError (diags : List Diag)
  deriving DecidableEq

/-- Python `line.strip('\n').split(" -> ")`. -/
def kvOf (line : String) : List String := pySplit " -> " (stripNl line)

/-- The identifier part `keyvalue[0]` of a line. -/
def idOf (line : String) : String := (kvOf line).getD 0 ""

/-- The value part `keyvalue[1]` of a line (default irrelevant: only used
under `hasSep`). -/
def valOf (line : String) : String := (kvOf line).getD 1 ""

/-- Whether the line contains the `" -> "` separator, i.e. whether
`keyvalue[1]` exists. -/
def hasSep (line : String) : Bool :=
  match kvOf line with
  | _ :: _ :: _ => true
  | _ => false

/-- Prepend one diagnostic to the output of a run. -/
def consDiag (d : Diag) : CheckResult → CheckResult
  | .ok ds => .ok (d :: ds)
  | .indexError ds => .indexError (d :: ds)

/-- Prepend several diagnostics to the output of a run. -/
def consDiags (ds : List Diag) (r : CheckResult) : CheckResult :=
  ds.foldr consDiag r

/-- The checker's scan loop, parameterized by the full `sys.argv` list
(`argv[0]` is the script name, `argv[1]` the result-file path). -/
def checkRun (argv : List String) : List String → CheckResult
  | [] => .ok []
  | line :: rest =>
    match kvOf line with
    | k :: v :: _ =>
      if v = "bottom" then consDiag (.bottomWarn k) (checkRun argv rest)
      else if 2 < argv.length then
        if k = argv.getD 2 "" then
          if v = "top" then .ok [.topOverride k]
          else
            match argv.get? 3 with
            | some e => if v = e then .ok [.success] else .ok [.fail k v e]
            | none => .indexError []
        else checkRun argv rest
      else checkRun argv rest
    | _ => .indexError []

/-- Diagnostics a single scanned-and-passed-over line contributes. -/
def lineDiags (line : String) : List Diag :=
  match kvOf line with
  | k :: v :: _ => if v = "bottom" then [.bottomWarn k] else []
  | _ => []

/-- Diagnostics contributed by a list of scanned-and-passed-over lines. -/
def scanDiags (lines : List String) : List Diag :=
  (lines.map lineDiags).flatten

/-- Whether processing this (separator-containing) line terminates the scan:
its value is not `bottom`, target arguments are present, and its identifier
equals `argv[2]`. -/
def stops (argv : List String) (line : String) : Bool :=
  match kvOf line with
  | k :: v :: _ =>
    if v = "bottom" then false
    else if 2 < argv.length then (if k = argv.getD 2 "" then true else false)
    else false
  | _ => false

/-- The diagnostics printed by a run, whatever its termination status. -/
def diagsOf : CheckResult → List Diag
  | .ok ds => ds
  | .indexError ds => ds

/-! Embedding of `double_to_smt.py`. -/

/-- Digit characters of Python `format` (`0`–`9`, then lowercase `a`–`f`). -/
def digitChar (n : Nat) : Char :=
  if n < 10 then Char.ofNat (48 + n) else Char.ofNat (87 + n)

/-- Digits accumulator; the fuel bounds the digit count and `n` suffices. -/
def toBaseAux (b : Nat) : Nat → Nat → List Char → List Char
  | 0, _, acc => acc
  | fuel + 1, n, acc =>
    if n = 0 then acc else toBaseAux b fuel (n / b) (digitChar (n % b) :: acc)

/-- The digits of `n` in base `b` without leading zeros (`0` gives `"0"`). -/
def natToBase (b n : Nat) : List Char :=
  if n = 0 then ['0'] else toBaseAux b n n []

/-- Zero-padding to a minimum width, as in `format(n, '064b')`. -/
def padLeft (c : Char) (w : Nat) (l : List Char) : List Char :=
  List.replicate (w - l.length) c ++ l

/-- Python `int(s, 2)` on a string of binary digits. -/
def binVal (l : List Char) : Nat :=
  l.foldl (fun a c => a * 2 + (c.toNat - 48)) 0

/-- The encoder `double_to_smt`, acting on the 64-bit IEEE-754 binary64 bit
pattern `as_ull` obtained by `struct.unpack('!Q', struct.pack('!d', x))`. -/
def double_to_smt (as_ull : Nat) : String :=
  let bits := padLeft '0' 64 (natToBase 2 as_ull)
  let exponent := (bits.drop 1).take 11
  let significand := bits.drop 12
  let sigHex := padLeft '0' 13 (natToBase 16 (binVal significand))
  "(fp #b" ++ (String.mk (bits.take 1) ++ (" #b" ++ (String.mk exponent ++
    (" #x" ++ (String.mk sigHex ++ ")")))))

/-- A binary digit character. -/
def isBinChar (c : Char) : Bool := c == '0' || c == '1'

/-- A lowercase hexadecimal digit character. -/
def isHexChar (c : Char) : Bool :=
  ('0' ≤ c && c ≤ '9') || ('a' ≤ c && c ≤ 'f')

/-- Numeric value of a string of lowercase hexadecimal digit characters. -/
def hexVal (l : List Char) : Nat :=
  l.foldl (fun a c => a * 16 + (if c.toNat ≤ 57 then c.toNat - 48 else c.toNat - 87)) 0

/-- The sign-bit field of an encoded literal (one character at offset 6). -/
def signField (s : String) : String := ⟨(s.data.drop 6).take 1⟩

/-- The 11-character exponent field of an encoded literal. -/
def expField (s : String) : String := ⟨(s.data.drop 10).take 11⟩

/-- The 13-character significand field of an encoded literal. -/
def sigField (s : String) : String := ⟨(s.data.drop 24).take 13⟩

/-- Decompose an encoded literal `(fp #b<s> #b<e*11> #x<h*13>)` into its
bit fields and reassemble the 64-bit pattern `s·2^63 + e·2^52 + h`;
`none` when the string is not of that shape. -/
def decodeSmt (s : String) : Option Nat :=
  let l := s.data
  let sign := (l.drop 6).take 1
  let expo := (l.drop 10).take 11
  let sig := (l.drop 24).take 13
  if l.length = 38 ∧ l.take 6 = "(fp #b".data ∧ (l.drop 7).take 3 = " #b".data
      ∧ (l.drop 21).take 3 = " #x".data ∧ l.drop 37 = ")".data
      ∧ sign.all isBinChar ∧ expo.all isBinChar ∧ sig.all isHexChar then
    some (binVal sign * 2 ^ 63 + binVal expo * 2 ^ 52 + hexVal sig)
  else none

/-- Modelled from the spec: the IEEE-754 binary64 bit pattern that
`struct.pack('!d', float(num))` produces for each numeric literal used by
the fixture generator (Python `float` itself is outside this repository). -/
def floatBits : String → Nat
  | "1.0" => 0x3FF0000000000000
  | "-1.0" => 0xBFF0000000000000
  | "2.0" => 0x4000000000000000
  | "-2.0" => 0xC000000000000000
  | "+0.0" => 0
  | "-0.0" => 0x8000000000000000
  | "+inf" => 0x7FF0000000000000
  | "-inf" => 0xFFF0000000000000
  | "4.9406564584124654e-324" => 1
  | "-4.9406564584124654e-324" => 0x8000000000000001
  | _ => 0

/-- Python `string.ascii_letters`. -/
def asciiLetters : List Char :=
  "abcdefghijklmnopqrstuvwxyzABCDEFGHIJKLMNOPQRSTUVWXYZ".data

/-- The fixed ten-element test list `nums` of `gen_literal_test`. -/
def testNums : List String :=
  ["1.0", "-1.0", "2.0", "-2.0", "+0.0", "-0.0", "+inf", "-inf",
   "4.9406564584124654e-324", "-4.9406564584124654e-324"]

/-- One verification directive `'; RUN: grep \'%s -> %s\' %%t2'`. -/
def runLine (p : Char × String) : String :=
  "; RUN: grep '" ++ (String.mk [p.1] ++ (" -> " ++
    (double_to_smt (floatBits p.2) ++ "' %t2")))

/-- One synthetic instruction `'%%%s = fadd double 0.0, %s'`. -/
def instrLine (p : Char × String) : String :=
  "%" ++ (String.mk [p.1] ++ (" = fadd double 0.0, " ++ p.2))

/-- The lines printed by `gen_literal_test`, in order: the verification
directives for every `zip(string.ascii_letters, nums)` pair, then the
synthetic instructions for every pair. -/
def gen_literal_test : List String :=
  (asciiLetters.zip testNums).map runLine ++ (asciiLetters.zip testNums).map instrLine

/-! Concrete inputs used by witnesses and counterexamples. -/

/-- An input file for the migrator whose two directive lines carry two
different texts before the marker. -/
def c1demo : List String :=
  ["noise", "//CONFIG: AbstractDomain: [X]", "##CONFIG: w: 3"]

/-- The rewritten contents `migrate` produces for `c1demo`. -/
def c1out : List String :=
  ["noise", "##CONFIG: config.w = 3",
   "##CONFIG: config.AbstractDomain = [globals()['X']]"]

/-- An input file for the migrator whose directive document parses but lacks
the reserved `AbstractDomain` key. -/
def c2demo : List String := ["keep me", "//CONFIG: widening: 3"]


/-! Helper lemmas about list indexing. -/

theorem get?_some_of_lt : ∀ (l : List String) (n : Nat), n < l.length → ∃ a, l.get? n = some a := by
  intro l
  induction l with
  | nil => intro n h; simp at h
  | cons a t ih =>
    intro n h
    cases n with
    | zero => exact ⟨a, rfl⟩
    | succ m => exact ih m (by simpa using h)

theorem lt_length_of_get? : ∀ {l : List String} {n : Nat} {a : String},
    l.get? n = some a → n < l.length := by
  intro l
  induction l with
  | nil => intro n a h; simp [List.get?] at h
  | cons x t ih =>
    intro n a h
    cases n with
    | zero => simp
    | succ m => exact Nat.succ_lt_succ (ih h)

theorem getD_of_get? : ∀ {l : List String} {n : Nat} {a : String},
    l.get? n = some a → l.getD n "" = a := by
  intro l
  induction l with
  | nil => intro n a h; simp [List.get?] at h
  | cons x t ih =>
    intro n a h
    cases n with
    | zero =>
      simp [List.get?] at h
      simp [List.getD, h]
    | succ m => exact ih h

/-! Helper lemmas about the checker's scan loop. -/

theorem consDiags_ok (ds xs : List Diag) :
    consDiags ds (CheckResult.ok xs) = .ok (ds ++ xs) := by
  induction ds with
  | nil => rfl
  | cons d t ih =>
    show consDiag d (consDiags t (CheckResult.ok xs)) = _
    rw [ih]
    rfl

theorem consDiags_indexError (ds xs : List Diag) :
    consDiags ds (CheckResult.indexError xs) = .indexError (ds ++ xs) := by
  induction ds with
  | nil => rfl
  | cons d t ih =>
    show consDiag d (consDiags t (CheckResult.indexError xs)) = _
    rw [ih]
    rfl

theorem consDiags_append (a b : List Diag) (r : CheckResult) :
    consDiags (a ++ b) r = consDiags a (consDiags b r) := by
  simp [consDiags, List.foldr_append]

theorem scanDiags_cons (l : String) (t : List String) :
    scanDiags (l :: t) = lineDiags l ++ scanDiags t := by
  simp [scanDiags]

-- A scanned line that neither stops the scan nor crashes is passed over,
-- contributing exactly its `lineDiags`.
theorem checkRun_skip (argv : List String) (l : String) (rest : List String)
    (hsep : hasSep l = true) (hstop : stops argv l = false) :
    checkRun argv (l :: rest) = consDiags (lineDiags l) (checkRun argv rest) := by
  cases hkv : kvOf l with
  | nil => simp [hasSep, hkv] at hsep
  | cons k t2 =>
    cases t2 with
    | nil => simp [hasSep, hkv] at hsep
    | cons v t3 =>
      by_cases hb : v = "bottom"
      · simp [checkRun, hkv, hb, lineDiags, consDiags]
      · have hld : lineDiags l = [] := by simp [lineDiags, hkv, hb]
        rw [hld]
        by_cases hlen : 2 < argv.length
        · by_cases hk : k = argv.getD 2 ""
          · simp [stops, hkv, hb, hlen, hk] at hstop
          · simp [hlen] at hk
            simp [checkRun, hkv, hb, hlen, hk, consDiags]
        · simp [checkRun, hkv, hb, hlen, consDiags]

-- Passing over a block of non-stopping well-formed lines.
theorem checkRun_skipAll (argv : List String) (pre rest : List String)
    (hpre : ∀ p ∈ pre, hasSep p = true ∧ stops argv p = false) :
    checkRun argv (pre ++ rest) = consDiags (scanDiags pre) (checkRun argv rest) := by
  induction pre with
  | nil => simp [scanDiags, consDiags]
  | cons l t ih =>
    have hl := hpre l (by simp)
    have ih2 := ih fun p hp => hpre p (by simp [hp])
    show checkRun argv (l :: (t ++ rest)) = _
    rw [checkRun_skip argv l (t ++ rest) hl.1 hl.2, ih2, scanDiags_cons,
      consDiags_append]

-- The scan terminates at a well-formed line whose identifier matches the
-- target and whose value is not `bottom`, printing the selected diagnostic.
theorem checkRun_stop (argv : List String) (t e l : String) (rest : List String)
    (h2 : argv.get? 2 = some t) (h3 : argv.get? 3 = some e)
    (hsep : hasSep l = true) (hid : idOf l = t) (hv : valOf l ≠ "bottom") :
    checkRun argv (l :: rest) =
      .ok [if valOf l = "top" then Diag.topOverride t
           else if valOf l = e then Diag.success else Diag.fail t (valOf l) e] := by
  cases hkv : kvOf l with
  | nil => simp [hasSep, hkv] at hsep
  | cons k t2 =>
    cases t2 with
    | nil => simp [hasSep, hkv] at hsep
    | cons v t3 =>
      have hidv : idOf l = k := by simp [idOf, hkv]
      have hvv : valOf l = v := by simp [valOf, hkv]
      have hlen : 2 < argv.length := lt_length_of_get? h2
      have hgd : argv.getD 2 "" = t := getD_of_get? h2
      have hk : k = t := by rw [← hidv, hid]
      subst hk
      rw [hvv] at hv ⊢
      simp [hlen] at hgd
      simp at h3
      by_cases htop : v = "top"
      · simp [checkRun, hkv, hv, hlen, hgd, htop]
      · by_cases hve : v = e
        · subst hve
          simp [checkRun, hkv, hv, hlen, hgd, h3, htop]
        · simp [checkRun, hkv, hv, hlen, hgd, h3, htop, hve]

-- On well-formed input and a well-formed argument vector the scan never
-- raises: it always terminates normally.
theorem checkRun_ok_of_wellformed (argv lines : List String)
    (hargv : argv.length ≤ 2 ∨ 4 ≤ argv.length)
    (h : ∀ l ∈ lines, hasSep l = true) : ∃ ds, checkRun argv lines = .ok ds := by
  induction lines with
  | nil => exact ⟨[], rfl⟩
  | cons l t ih =>
    obtain ⟨ds, hds⟩ := ih fun p hp => h p (by simp [hp])
    have hsep := h l (by simp)
    cases hkv : kvOf l with
    | nil => simp [hasSep, hkv] at hsep
    | cons k t2 =>
      cases t2 with
      | nil => simp [hasSep, hkv] at hsep
      | cons v t3 =>
        by_cases hb : v = "bottom"
        · exact ⟨.bottomWarn k :: ds, by simp [checkRun, hkv, hb, hds, consDiag]⟩
        · by_cases hlen : 2 < argv.length
          · by_cases hk : k = argv.getD 2 ""
            · by_cases htop : v = "top"
              · exact ⟨[Diag.topOverride k], by simp [checkRun, hkv, hb, hlen, hk, htop]⟩
              · have h4 : 4 ≤ argv.length := by
                  rcases hargv with h2 | h4
                  · omega
                  · exact h4
                obtain ⟨e, he⟩ := get?_some_of_lt argv 3 (by omega)
                simp at he
                by_cases hve : v = e
                · exact ⟨[Diag.success],
                    by subst hve; simp [checkRun, hkv, hb, hlen, hk, htop, he]⟩
                · exact ⟨[Diag.fail k v e],
                    by simp [checkRun, hkv, hb, hlen, hk, htop, he, hve]⟩
            · simp [hlen] at hk
              exact ⟨ds, by simp [checkRun, hkv, hb, hlen, hk, hds]⟩
          · exact ⟨ds, by simp [checkRun, hkv, hb, hlen, hds]⟩

/-! Helper lemmas about the migrator's scan. -/

theorem scanStep_pfx_none {st : ScanState} {l : String} (h : configMatch l = none) :
    (scanStep st l).pfx = st.pfx := by
  simp only [scanStep, h]
  split <;> rfl

theorem scanStep_src_none {st : ScanState} {l : String} (h : configMatch l = none) :
    (scanStep st l).yaml_src = st.yaml_src := by
  simp only [scanStep, h]
  split <;> rfl

theorem scanStep_pfx_some {st : ScanState} {l : String} {g1 g2 : String}
    (h : configMatch l = some (g1, g2)) : (scanStep st l).pfx = some g1 := by
  simp [scanStep, h]

-- The fold's final `prefix` is the last matching line's group 1.
theorem foldl_scan_pfx : ∀ (lines : List String) (st : ScanState),
    (List.foldl scanStep st lines).pfx =
      (match lastPfx lines with
       | some p => some p
       | none => st.pfx) := by
  intro lines
  induction lines with
  | nil => intro st; rfl
  | cons l tl ih =>
    intro st
    show (List.foldl scanStep (scanStep st l) tl).pfx = _
    rw [ih (scanStep st l)]
    cases hlt : lastPfx tl with
    | some p => simp [lastPfx, hlt]
    | none =>
      cases hm : configMatch l with
      | none => simp [lastPfx, hlt, hm, scanStep_pfx_none hm]
      | some pq =>
        cases pq with
        | mk g1 g2 => simp [lastPfx, hlt, hm, scanStep_pfx_some hm]

theorem lastPfx_none_no_match : ∀ (lines : List String), lastPfx lines = none →
    ∀ l ∈ lines, configMatch l = none := by
  intro lines
  induction lines with
  | nil => intro _ l hl; simp at hl
  | cons a tl ih =>
    intro h l hl
    cases hlt : lastPfx tl with
    | some g => simp [lastPfx, hlt] at h
    | none =>
      rcases List.mem_cons.mp hl with rfl | hl2
      · cases hm : configMatch l with
        | none => rfl
        | some pq => simp [lastPfx, hlt, hm] at h
      · exact ih hlt l hl2

theorem foldl_src_no_match : ∀ (lines : List String) (st : ScanState),
    (∀ l ∈ lines, configMatch l = none) →
    (List.foldl scanStep st lines).yaml_src = st.yaml_src := by
  intro lines
  induction lines with
  | nil => intro st _; rfl
  | cons a tl ih =>
    intro st h
    show (List.foldl scanStep (scanStep st a) tl).yaml_src = _
    rw [ih (scanStep st a) fun l hl => h l (List.mem_cons.mpr (Or.inr hl)),
      scanStep_src_none (h a (by simp))]

/-! Claim theorems for the extractor. -/

/-- C3 counterexample: on the input lines `["CONFIG: a\n", "x"]` the final
line lacks a terminator and extraction fails, yet the payload `"a"` of the
first line has already been emitted — the partial output is not empty,
contradicting the claim that no payload is emitted for any line of such an
input. -/
theorem extract_streaming_cex :
    extractRun ["CONFIG: a\n", "x"] = .assertFail ["a"] ∧
    (["a"] : List String) ≠ [] := by decide

/-- C3 (amended): extraction fails (assertion error, non-zero exit) upon
reaching the first line lacking a terminator, emitting no payload for that
line or any later line; but the payloads of all earlier lines have already
been written, so the partial output equals exactly the earlier lines'
payloads. -/
theorem extract_streaming_failure (pre : List String) (mal : String) (post : List String)
    (hpre : ∀ l ∈ pre, pyEndswithNl l = true) (hmal : pyEndswithNl mal = false) :
    extractRun (pre ++ mal :: post) = .assertFail (extractOutputs pre) := by
  induction pre with
  | nil => simp [extractRun, hmal, extractOutputs]
  | cons a t ih =>
    have ha := hpre a (by simp)
    have ih2 := ih fun l hl => hpre l (by simp [hl])
    show extractRun (a :: (t ++ mal :: post)) = _
    simp [extractRun, ha, ih2, extractOutputs]

/-- Witness for the amended C3 theorem at a concrete input: the unterminated
second line aborts the run, the first line's payload is already out, and the
third line contributes nothing. -/
theorem extract_streaming_failure_witness :
    extractRun (["CONFIG: b\n"] ++ "CONFIG: c" :: ["CONFIG: d\n"]) =
      .assertFail (extractOutputs ["CONFIG: b\n"]) :=
  extract_streaming_failure ["CONFIG: b\n"] "CONFIG: c" ["CONFIG: d\n"]
    (by decide) (by decide)

/-! Claim theorems for the float-literal encoder. -/

/-- C4: for every double in the test list (represented by its IEEE-754
binary64 bit pattern), extracting the sign bit, the 11-bit exponent field
and the 13-nibble significand field from the encoded string and reassembling
them reconstructs exactly the 64-bit pattern; and
`encode(1.0) = "(fp #b0 #b01111111111 #x0000000000000)"`. -/
theorem double_to_smt_roundtrip :
    double_to_smt (floatBits "1.0") = "(fp #b0 #b01111111111 #x0000000000000)" ∧
    decodeSmt (double_to_smt (floatBits "1.0")) = some (floatBits "1.0") ∧
    decodeSmt (double_to_smt (floatBits "-1.0")) = some (floatBits "-1.0") ∧
    decodeSmt (double_to_smt (floatBits "2.0")) = some (floatBits "2.0") ∧
    decodeSmt (double_to_smt (floatBits "-2.0")) = some (floatBits "-2.0") ∧
    decodeSmt (double_to_smt (floatBits "+0.0")) = some (floatBits "+0.0") ∧
    decodeSmt (double_to_smt (floatBits "-0.0")) = some (floatBits "-0.0") ∧
    decodeSmt (double_to_smt (floatBits "+inf")) = some (floatBits "+inf") ∧
    decodeSmt (double_to_smt (floatBits "-inf")) = some (floatBits "-inf") ∧
    decodeSmt (double_to_smt (floatBits "4.9406564584124654e-324")) =
      some (floatBits "4.9406564584124654e-324") ∧
    decodeSmt (double_to_smt (floatBits "-4.9406564584124654e-324")) =
      some (floatBits "-4.9406564584124654e-324") := by decide

/-- C9: the encodings of `0.0` and `-0.0` differ only in the sign-bit field:
the exponent and significand fields agree and are all zero, while the sign
bits are `0` and `1` respectively. -/
theorem double_to_smt_signed_zero :
    double_to_smt (floatBits "+0.0") = "(fp #b0 #b00000000000 #x0000000000000)" ∧
    double_to_smt (floatBits "-0.0") = "(fp #b1 #b00000000000 #x0000000000000)" ∧
    signField (double_to_smt (floatBits "+0.0")) = "0" ∧
    signField (double_to_smt (floatBits "-0.0")) = "1" ∧
    expField (double_to_smt (floatBits "+0.0")) =
      expField (double_to_smt (floatBits "-0.0")) ∧
    sigField (double_to_smt (floatBits "+0.0")) =
      sigField (double_to_smt (floatBits "-0.0")) ∧
    expField (double_to_smt (floatBits "+0.0")) = "00000000000" ∧
    sigField (double_to_smt (floatBits "+0.0")) = "0000000000000" := by decide

/-- C8: the fixture generator prints twenty lines; for every `i < 10` the
`i`-th line is the verification directive for the `i`-th
(letter, double) pair of `zip(string.ascii_letters, nums)`, and the
`(10+i)`-th line is the synthetic instruction for the same pair — the two
blocks use the same pairing order. -/
theorem gen_literal_test_pairing :
    gen_literal_test.length = 20 ∧
    ∀ i, i < 10 →
      gen_literal_test.get? i = ((asciiLetters.zip testNums).get? i).map runLine ∧
      gen_literal_test.get? (10 + i) =
        ((asciiLetters.zip testNums).get? i).map instrLine := by decide

/-- Witness for the C8 theorem at index `0`. -/
theorem gen_literal_test_pairing_witness :
    gen_literal_test.get? 0 = ((asciiLetters.zip testNums).get? 0).map runLine :=
  (gen_literal_test_pairing.2 0 (by decide)).1

/-! Claim theorems for the result checker. -/

/-- C5: with target and expected supplied (`argv[2]`, `argv[3]`), at the
first result line whose identifier equals the target and whose value is not
`"bottom"` — all earlier lines being well-formed and non-stopping — the scan
terminates: it emits the top-override diagnostic when the value is `"top"`
irrespective of the expected value, a success diagnostic when the value
equals the expected one, and otherwise a failure diagnostic carrying the
identifier, the actual value, and the expected value; the result does not
depend on any later line. -/
theorem check_first_target_match (argv : List String) (t e : String)
    (pre post : List String) (l : String)
    (h2 : argv.get? 2 = some t) (h3 : argv.get? 3 = some e)
    (hpre : ∀ p ∈ pre, hasSep p = true ∧ stops argv p = false)
    (hsep : hasSep l = true) (hid : idOf l = t) (hv : valOf l ≠ "bottom") :
    checkRun argv (pre ++ l :: post) =
      .ok (scanDiags pre ++ [if valOf l = "top" then Diag.topOverride t
        else if valOf l = e then Diag.success else Diag.fail t (valOf l) e]) ∧
    checkRun argv (pre ++ l :: post) = checkRun argv (pre ++ [l]) := by
  have hstop := checkRun_stop argv t e l post h2 h3 hsep hid hv
  have hstop1 := checkRun_stop argv t e l [] h2 h3 hsep hid hv
  refine ⟨?_, ?_⟩
  · rw [checkRun_skipAll argv pre (l :: post) hpre, hstop, consDiags_ok]
  · rw [checkRun_skipAll argv pre (l :: post) hpre,
      checkRun_skipAll argv pre [l] hpre, hstop, hstop1]

/-- Witness for the C5 theorem: a bottom warning for the first line, then the
first occurrence of target `x` (value `7`, expected `5`) stops the scan with
a failure diagnostic; the later `x -> 5` line is never considered. -/
theorem check_first_target_match_witness :
    checkRun ["check.py", "res", "x", "5"] (["b -> bottom"] ++ "x -> 7" :: ["x -> 5"]) =
      .ok (scanDiags ["b -> bottom"] ++
        [if valOf "x -> 7" = "top" then Diag.topOverride "x"
         else if valOf "x -> 7" = "5" then Diag.success
         else Diag.fail "x" (valOf "x -> 7") "5"]) ∧
    checkRun ["check.py", "res", "x", "5"] (["b -> bottom"] ++ "x -> 7" :: ["x -> 5"]) =
      checkRun ["check.py", "res", "x", "5"] (["b -> bottom"] ++ ["x -> 7"]) :=
  check_first_target_match ["check.py", "res", "x", "5"] "x" "5"
    ["b -> bottom"] ["x -> 5"] "x -> 7"
    (by decide) (by decide) (by decide) (by decide) (by decide) (by decide)

/-- C6 counterexample: with `target = "x"`, `expected = "5"` and result
lines `["x -> 5", "y -> bottom"]`, the line `y -> bottom` has value
`"bottom"` yet no bottom warning naming `y` is emitted: the scan already
terminated at `x -> 5`, refuting the claim that the warning is emitted on
every line whose value is `"bottom"` for every choice of arguments. -/
theorem check_bottom_unreached_cex :
    checkRun ["check.py", "res", "x", "5"] ["x -> 5", "y -> bottom"] =
      .ok [Diag.success] ∧
    valOf "y -> bottom" = "bottom" ∧
    Diag.bottomWarn "y" ∉
      diagsOf (checkRun ["check.py", "res", "x", "5"] ["x -> 5", "y -> bottom"]) := by
  decide

/-- C6 (amended): on every line the scan actually reaches (all earlier lines
being well-formed and non-stopping), a value of `"bottom"` emits the warning
naming the identifier — regardless of the target/expected arguments, and
even when the line's identifier equals the target — and never terminates the
scan: the run continues with the remaining lines. -/
theorem check_bottom_warning_scanned (argv : List String)
    (pre post : List String) (l : String)
    (hpre : ∀ p ∈ pre, hasSep p = true ∧ stops argv p = false)
    (hsep : hasSep l = true) (hv : valOf l = "bottom") :
    checkRun argv (pre ++ l :: post) =
      consDiags (scanDiags pre ++ [Diag.bottomWarn (idOf l)]) (checkRun argv post) := by
  have hstop : stops argv l = false := by
    cases hkv : kvOf l with
    | nil => simp [stops, hkv]
    | cons k t2 =>
      cases t2 with
      | nil => simp [stops, hkv]
      | cons v t3 =>
        have : v = "bottom" := by
          have := hv
          simp [valOf, hkv] at this
          exact this
        simp [stops, hkv, this]
  have hld : lineDiags l = [Diag.bottomWarn (idOf l)] := by
    cases hkv : kvOf l with
    | nil => simp [hasSep, hkv] at hsep
    | cons k t2 =>
      cases t2 with
      | nil => simp [hasSep, hkv] at hsep
      | cons v t3 =>
        have hvb : v = "bottom" := by
          have := hv
          simp [valOf, hkv] at this
          exact this
        simp [lineDiags, idOf, hkv, hvb]
  rw [checkRun_skipAll argv pre (l :: post) hpre,
    checkRun_skip argv l post hsep hstop, hld, consDiags_append]

/-- Witness for the amended C6 theorem: the bottom line's identifier equals
the target `y`, the warning is still emitted, and scanning continues with
the next line. -/
theorem check_bottom_warning_scanned_witness :
    checkRun ["check.py", "res", "y", "5"] ([] ++ "y -> bottom" :: ["y -> 3"]) =
      consDiags (scanDiags [] ++ [Diag.bottomWarn (idOf "y -> bottom")])
        (checkRun ["check.py", "res", "y", "5"] ["y -> 3"]) :=
  check_bottom_warning_scanned ["check.py", "res", "y", "5"] [] ["y -> 3"]
    "y -> bottom" (by decide) (by decide) (by decide)

/-- C7: on a well-formed result file (every line contains the separator) and
a well-formed argument vector (target and expected both absent or both
present), the checker always terminates normally — exit status zero — under
every outcome: success, mismatch, top-override, bottom warnings, or no match
found. -/
theorem check_exit_status_zero (argv lines : List String)
    (hargv : argv.length ≤ 2 ∨ 4 ≤ argv.length)
    (hlines : ∀ l ∈ lines, hasSep l = true) :
    ∃ ds, checkRun argv lines = .ok ds :=
  checkRun_ok_of_wellformed argv lines hargv hlines

/-- Witness for the C7 theorem: a run with a mismatch-free scan over a
well-formed file terminates normally. -/
theorem check_exit_status_zero_witness :
    ∃ ds, checkRun ["check.py", "res"] ["x -> 5", "y -> bottom"] = .ok ds :=
  check_exit_status_zero ["check.py", "res"] ["x -> 5", "y -> bottom"]
    (by decide) (by decide)

/-- C10: reaching any line without the `" -> "` separator aborts the checker
with an uncaught `IndexError` (non-zero termination), the diagnostics of the
earlier lines having been printed; conversely the abort never occurs when
every line of the file contains the separator, nor when the scan stops at a
well-formed matching line before reaching any malformed line. -/
theorem check_missing_separator_abort :
    (∀ (argv : List String) (pre : List String) (mal : String) (post : List String),
      (∀ p ∈ pre, hasSep p = true ∧ stops argv p = false) →
      hasSep mal = false →
      checkRun argv (pre ++ mal :: post) = .indexError (scanDiags pre)) ∧
    (∀ (argv lines : List String), argv.length ≤ 2 ∨ 4 ≤ argv.length →
      (∀ l ∈ lines, hasSep l = true) →
      ∀ ds, checkRun argv lines ≠ .indexError ds) ∧
    (∀ (argv : List String) (pre : List String) (l : String) (post : List String)
      (e : String),
      (∀ p ∈ pre, hasSep p = true ∧ stops argv p = false) →
      hasSep l = true → stops argv l = true → argv.get? 3 = some e →
      ∀ ds, checkRun argv (pre ++ l :: post) ≠ .indexError ds) := by
  refine ⟨?_, ?_, ?_⟩
  · intro argv pre mal post hpre hmal
    have hstep : checkRun argv (mal :: post) = .indexError [] := by
      cases hkv : kvOf mal with
      | nil => simp [checkRun, hkv]
      | cons k t2 =>
        cases t2 with
        | nil => simp [checkRun, hkv]
        | cons v t3 => simp [hasSep, hkv] at hmal
    rw [checkRun_skipAll argv pre (mal :: post) hpre, hstep,
      consDiags_indexError, List.append_nil]
  · intro argv lines hargv hlines ds h
    obtain ⟨ds2, hds2⟩ := checkRun_ok_of_wellformed argv lines hargv hlines
    rw [hds2] at h
    exact CheckResult.noConfusion h
  · intro argv pre l post e hpre hsep hstop h3 ds h
    rw [checkRun_skipAll argv pre (l :: post) hpre] at h
    have hok : ∃ xs, checkRun argv (l :: post) = .ok xs := by
      cases hkv : kvOf l with
      | nil => simp [hasSep, hkv] at hsep
      | cons k t2 =>
        cases t2 with
        | nil => simp [hasSep, hkv] at hsep
        | cons v t3 =>
          have hb : v ≠ "bottom" := by
            intro hbb
            simp [stops, hkv, hbb] at hstop
          have hlen : 2 < argv.length := by
            by_contra hlen
            simp [stops, hkv, hb, hlen] at hstop
          have hk : k = argv.getD 2 "" := by
            by_contra hkk
            simp [hlen] at hkk
            simp [stops, hkv, hb, hlen, hkk] at hstop
          simp [hlen] at hk
          simp at h3
          by_cases htop : v = "top"
          · exact ⟨[Diag.topOverride k], by simp [checkRun, hkv, hb, hlen, hk, htop]⟩
          · by_cases hve : v = e
            · exact ⟨[Diag.success],
                by subst hve; simp [checkRun, hkv, hb, hlen, hk, htop, h3]⟩
            · exact ⟨[Diag.fail k v e],
                by simp [checkRun, hkv, hb, hlen, hk, htop, h3, hve]⟩
    obtain ⟨xs, hxs⟩ := hok
    rw [hxs, consDiags_ok] at h
    exact CheckResult.noConfusion h

/-- Witness for the C10 theorem (first conjunct): an empty line after a
bottom line aborts the run with the bottom warning already printed. -/
theorem check_missing_separator_abort_witness :
    checkRun ["check.py", "res"] (["x -> bottom"] ++ "" :: ["z -> 1"]) =
      .indexError (scanDiags ["x -> bottom"]) :=
  check_missing_separator_abort.1 ["check.py", "res"] ["x -> bottom"] "" ["z -> 1"]
    (by decide) (by decide)

/-! Equation lemmas for the migrator's outcome in each case. -/

theorem migrate_parse_err (lines : List String)
    (hy : yamlLoad (migrateScan lines).yaml_src = none) :
    migrate lines = .parseError := by
  simp [migrate, hy]

theorem migrate_nil_doc (lines : List String)
    (hy : yamlLoad (migrateScan lines).yaml_src = some .nil) :
    migrate lines = .runtimeError (migrateScan lines).lines_pre := by
  simp [migrate, hy]

theorem migrate_scalar_doc (lines : List String) (s : String)
    (hy : yamlLoad (migrateScan lines).yaml_src = some (.scalarDoc s)) :
    migrate lines = .runtimeError (migrateScan lines).lines_pre := by
  simp [migrate, hy]

theorem migrate_dict_no_key (lines : List String) (entries : List (String × YVal))
    (hy : yamlLoad (migrateScan lines).yaml_src = some (.dict entries))
    (hlk : entries.lookup "AbstractDomain" = none) :
    migrate lines = .runtimeError (migrateScan lines).lines_pre := by
  simp [migrate, hy, hlk]

theorem migrate_dict_some (lines : List String) (entries : List (String × YVal))
    (domv : YVal)
    (hy : yamlLoad (migrateScan lines).yaml_src = some (.dict entries))
    (hlk : entries.lookup "AbstractDomain" = some domv) :
    migrate lines = .ok ((migrateScan lines).lines_pre ++
      ((entries.filter fun kv => kv.1 != "AbstractDomain").map fun kv =>
        mkDirLine ((migrateScan lines).pfx.getD "None") kv.1 (renderVal kv.2))
      ++ [mkDomLine ((migrateScan lines).pfx.getD "None") (domainNames domv)]
      ++ (migrateScan lines).lines_post) := by
  simp [migrate, hy, hlk]

/-! Claim theorems for the legacy-config migrator. -/

/-- C1 counterexample: in `c1demo` the first directive-matching line carries
the text `//CONFIG:` before (and including) the marker, yet the emitted
directive lines start with `##CONFIG:`, the last matching line's text —
refuting the claim that the prefix comes from the first matching line. -/
theorem migrate_first_pfx_cex :
    migrate c1demo = .ok c1out ∧
    firstPfx c1demo = some "//CONFIG:" ∧
    lastPfx c1demo = some "##CONFIG:" ∧
    "//CONFIG:".data.isPrefixOf ("##CONFIG: config.w = 3").data = false ∧
    c1out.get? 1 = some "##CONFIG: config.w = 3" ∧
    c1out.get? 2 = some "##CONFIG: config.AbstractDomain = [globals()['X']]" := by
  decide

/-- C1 (amended): for every successful migration, the prefix used in every
emitted directive line (the key lines and the domain-list line, the block
between the copied leading and trailing regions) is the literal text up to
and including the marker on the LAST directive-marker-matching line of the
file — the scan overwrites the prefix at every match, so the last match
wins, not the first. -/
theorem migrate_pfx_from_last_match (lines file : List String)
    (h : migrate lines = .ok file) :
    ∃ p dirs, lastPfx lines = some p ∧
      file = (migrateScan lines).lines_pre ++ dirs ++ (migrateScan lines).lines_post ∧
      dirs ≠ [] ∧ ∀ d ∈ dirs, ∃ rest, d = p ++ rest := by
  cases hp : (migrateScan lines).pfx with
  | none =>
    exfalso
    have hfold : (migrateScan lines).pfx =
        (match lastPfx lines with
         | some q => some q
         | none => none) := foldl_scan_pfx lines ⟨[], [], "", none⟩
    rw [hp] at hfold
    have hlast : lastPfx lines = none := by
      cases hl : lastPfx lines with
      | some q => rw [hl] at hfold; simp at hfold
      | none => rfl
    have hsrc : (migrateScan lines).yaml_src = "" :=
      foldl_src_no_match lines ⟨[], [], "", none⟩ (lastPfx_none_no_match lines hlast)
    have hy : yamlLoad (migrateScan lines).yaml_src = some YDoc.nil := by
      rw [hsrc]; decide
    rw [migrate_nil_doc lines hy] at h
    exact MigrateResult.noConfusion h
  | some p =>
    have hfold : (migrateScan lines).pfx =
        (match lastPfx lines with
         | some q => some q
         | none => none) := foldl_scan_pfx lines ⟨[], [], "", none⟩
    rw [hp] at hfold
    have hlast : lastPfx lines = some p := by
      cases hl : lastPfx lines with
      | some q =>
        rw [hl] at hfold
        simp at hfold
        rw [hfold]
      | none => rw [hl] at hfold; simp at hfold
    cases hy : yamlLoad (migrateScan lines).yaml_src with
    | none =>
      rw [migrate_parse_err lines hy] at h
      exact MigrateResult.noConfusion h
    | some doc =>
      cases doc with
      | nil =>
        rw [migrate_nil_doc lines hy] at h
        exact MigrateResult.noConfusion h
      | scalarDoc s =>
        rw [migrate_scalar_doc lines s hy] at h
        exact MigrateResult.noConfusion h
      | dict entries =>
        cases hlk : entries.lookup "AbstractDomain" with
        | none =>
          rw [migrate_dict_no_key lines entries hy hlk] at h
          exact MigrateResult.noConfusion h
        | some domv =>
          rw [migrate_dict_some lines entries domv hy hlk, hp] at h
          simp only [Option.getD_some, MigrateResult.ok.injEq] at h
          refine ⟨p, (entries.filter fun kv => kv.1 != "AbstractDomain").map
              (fun kv => mkDirLine p kv.1 (renderVal kv.2)) ++
              [mkDomLine p (domainNames domv)], hlast, ?_, by simp, ?_⟩
          · rw [← h]
            simp [List.append_assoc]
          · intro d hd
            rcases List.mem_append.mp hd with hd1 | hd2
            · obtain ⟨kv, _, rfl⟩ := List.mem_map.mp hd1
              exact ⟨" config." ++ (kv.1 ++ (" = " ++ renderVal kv.2)), rfl⟩
            · have hdd : d = mkDomLine p (domainNames domv) := by simpa using hd2
              exact ⟨" config.AbstractDomain = [" ++
                (joinSep ", " ((domainNames domv).map
                  fun x => "globals()['" ++ (x ++ "']")) ++ "]"), hdd⟩

/-- Witness for the amended C1 theorem at the concrete input `c1demo`. -/
theorem migrate_pfx_from_last_match_witness :
    ∃ p dirs, lastPfx c1demo = some p ∧
      c1out = (migrateScan c1demo).lines_pre ++ dirs ++ (migrateScan c1demo).lines_post ∧
      dirs ≠ [] ∧ ∀ d ∈ dirs, ∃ rest, d = p ++ rest :=
  migrate_pfx_from_last_match c1demo c1out (by decide)

/-- C2 counterexample: on `c2demo` the directive document parses but lacks
the reserved `AbstractDomain` key; the run fails, but only after the file
has been truncated and the leading region written — the file now holds
`["keep me"]`, which differs from the original contents, refuting the claim
that no partial write is performed and the file is left unchanged. -/
theorem migrate_truncating_write_cex :
    migrate c2demo = .runtimeError ["keep me"] ∧
    (["keep me"] : List String) ≠ c2demo := by decide

/-- C2 (amended): when the accumulated directive document cannot be parsed,
the migrator fails with a non-zero exit before opening the file for writing,
leaving the contents unchanged; but when the document parses to a mapping
lacking the reserved `AbstractDomain` key, the migrator fails with a
non-zero exit only after truncating the file and writing the leading region
— a partial write. -/
theorem migrate_error_write_behavior (lines : List String) :
    (yamlLoad (migrateScan lines).yaml_src = none → migrate lines = .parseError) ∧
    (∀ entries, yamlLoad (migrateScan lines).yaml_src = some (.dict entries) →
      entries.lookup "AbstractDomain" = none →
      migrate lines = .runtimeError (migrateScan lines).lines_pre) := by
  refine ⟨?_, ?_⟩
  · intro h
    exact migrate_parse_err lines h
  · intro entries h hlk
    exact migrate_dict_no_key lines entries h hlk

/-- Witness for the amended C2 theorem at the concrete input `c2demo`. -/
theorem migrate_error_write_behavior_witness :
    migrate c2demo = .runtimeError (migrateScan c2demo).lines_pre :=
  (migrate_error_write_behavior c2demo).2 [("widening", YVal.scalar "3")]
    (by decide) (by decide)
